import Mathlib

/-!
Verification of the gwportal filename-classification and reconciliation engine.

Filenames are modelled as `List Char` (Python strings are character
sequences; all inputs of interest are ASCII).  Python's `str.lower` /
`str.upper` are modelled with `Char.toLower` / `Char.toUpper`, which agree
with Python on ASCII.  Python sets are modelled as `Finset (List Char)`.
Coordinates (only ever compared for equality with `0.0`, never computed
with) are modelled as `ℚ`.
-/

/-- Python `needle in hay` restricted to "hay starts with needle". -/
def listHasPre : List Char → List Char → Bool
  | [], _ => true
  | _ :: _, [] => false
  | p :: ps, c :: cs => p = c && listHasPre ps cs

/-- Python substring test `pat in hay` on character lists. -/
def listContains : List Char → List Char → Bool
  | [], pat => pat.isEmpty
  | hay@(_ :: t), pat => listHasPre pat hay || listContains t pat

/-- Python `str.lower` (ASCII). -/
def pyLower (s : List Char) : List Char := s.map Char.toLower

/-- Python `str.upper` (ASCII). -/
def pyUpper (s : List Char) : List Char := s.map Char.toUpper

theorem listHasPre_iff (p s : List Char) :
    listHasPre p s = true ↔ ∃ r, s = p ++ r := by
  induction p generalizing s with
  | nil => simp [listHasPre]
  | cons a ps ih =>
    cases s with
    | nil => simp [listHasPre]
    | cons c cs =>
      simp only [listHasPre, Bool.and_eq_true, decide_eq_true_eq, ih, List.cons_append,
        List.cons.injEq]
      constructor
      · rintro ⟨rfl, r, rfl⟩; exact ⟨r, rfl, rfl⟩
      · rintro ⟨r, rfl, rfl⟩; exact ⟨rfl, r, rfl⟩

theorem listContains_iff (hay pat : List Char) :
    listContains hay pat = true ↔ ∃ l r, hay = l ++ pat ++ r := by
  induction hay with
  | nil =>
    simp only [listContains, List.isEmpty_iff]
    constructor
    · rintro rfl; exact ⟨[], [], rfl⟩
    · rintro ⟨l, r, h⟩
      rcases List.append_eq_nil.1 h.symm with ⟨h1, h2⟩
      exact (List.append_eq_nil.1 h1).2
  | cons c cs ih =>
    simp only [listContains, Bool.or_eq_true, listHasPre_iff, ih]
    constructor
    · rintro (⟨r, hr⟩ | ⟨l, r, hr⟩)
      · exact ⟨[], r, by simpa using hr⟩
      · exact ⟨c :: l, r, by simp [hr]⟩
    · rintro ⟨l, r, hr⟩
      cases l with
      | nil => exact Or.inl ⟨r, by simpa using hr⟩
      | cons x xs =>
        right
        simp only [List.cons_append, List.cons.injEq] at hr
        exact ⟨xs, r, hr.2⟩

/-- Members of a string that contains `pat` include every character of `pat`. -/
theorem mem_of_listContains {hay pat : List Char} (h : listContains hay pat = true)
    {c : Char} (hc : c ∈ pat) : c ∈ hay := by
  rcases (listContains_iff hay pat).1 h with ⟨l, r, rfl⟩
  simp [hc]

/-! ### CHECK_missing_files.py : the reconciliation-side science predicate -/

/-- The substring markers excluded by `is_science_file`
(`CHECK_missing_files.py` lines 27-31). -/
def exclude_patterns : List (List Char) :=
  ["focus", "test", "master", "calib", "lamp", "twilight",
   "snapshot", "corsub", "sub_", "autofocus", "af_",
   "defocus_test"].map String.toList

/-- The exact-match special filenames (`CHECK_missing_files.py` lines 34-36). -/
def special_excludes : List (List Char) :=
  ["bias.fits", "mask60.fits", "snapshot"].map String.toList

/-- `is_science_file` from `CHECK_missing_files.py` lines 22-47. -/
def is_science_file (filename : List Char) : Bool :=
  if pyLower filename ∈ special_excludes then false
  else if exclude_patterns.any (fun pattern => listContains (pyLower filename) pattern) then
    false
  else true

/-- `get_filename_pattern`'s underscore split (Python `str.split('_')`). -/
def splitU : List Char → List (List Char)
  | [] => [[]]
  | c :: cs =>
    let r := splitU cs
    if c = '_' then [] :: r
    else
      match r with
      | [] => [[c]]
      | t :: ts => (c :: t) :: ts

/-- Python `'_'.join`. -/
def joinU : List (List Char) → List Char
  | [] => []
  | [t] => t
  | t :: ts => t ++ '_' :: joinU ts

/-- Python `str.replace('.fits', '')`: delete every occurrence of `.fits`,
scanning left to right. -/
def removeFits : List Char → List Char
  | '.' :: 'f' :: 'i' :: 't' :: 's' :: rest => removeFits rest
  | c :: rest => c :: removeFits rest
  | [] => []

/-- Python `str.endswith(suf)`. -/
def listHasSuf (suf s : List Char) : Bool := listHasPre suf.reverse s.reverse

/-- `get_filename_pattern` from `CHECK_missing_files.py` lines 49-64:
replace the 4th underscore token with `[OBJECT]` and an all-digit trailing
`NNNN.fits` token with `[NUM].fits`, provided there are at least 6 tokens. -/
def get_filename_pattern (filename : List Char) : List Char :=
  let parts := splitU filename
  if 6 ≤ parts.length then
    let pattern_parts := parts.set 3 "[OBJECT]".toList
    let last_part := pattern_parts.getLastD []
    let new_last :=
      if listHasSuf ".fits".toList last_part then
        let number_part := removeFits last_part
        if ¬number_part.isEmpty ∧ number_part.all Char.isDigit then
          "[NUM].fits".toList
        else last_part
      else last_part
    joinU (pattern_parts.dropLast ++ [new_last])
  else filename

/-! ### The date regexes of `get_files_by_date_range` / the grouping loop -/

/-- One attempt of the regex `7DT\d+_(\d{8})_` anchored at the head of the
list: `7DT`, a nonempty digit run, `_`, eight digits (the captured group),
`_`. -/
def matchUnitDateAt : List Char → Option (List Char)
  | '7' :: 'D' :: 'T' :: rest =>
    let run := rest.takeWhile Char.isDigit
    if run.isEmpty then none
    else
      match rest.drop run.length with
      | '_' :: r2 =>
        let d8 := r2.take 8
        if d8.length = 8 ∧ d8.all Char.isDigit then
          match r2.drop 8 with
          | '_' :: _ => some d8
          | _ => none
        else none
      | _ => none
  | _ => none

/-- `re.search(r'7DT\d+_(\d{8})_', s)`: leftmost match of the pattern,
returning the 8-digit capture. -/
def searchUnitDate : List Char → Option (List Char)
  | [] => none
  | c :: cs =>
    match matchUnitDateAt (c :: cs) with
    | some d => some d
    | none => searchUnitDate cs

/-- `f"{d[:4]}-{d[4:6]}-{d[6:8]}"`: format an 8-digit date token. -/
def formatDate8 (d : List Char) : List Char :=
  d.take 4 ++ '-' :: ((d.drop 4).take 2 ++ '-' :: (d.drop 6).take 2)

/-- One attempt of the regex `(\d{4}-\d{2}-\d{2})` anchored at the head. -/
def matchFolderDateAt : List Char → Option (List Char)
  | a :: b :: c :: d :: '-' :: e :: f :: '-' :: g :: h :: _ =>
    if [a, b, c, d, e, f, g, h].all Char.isDigit then
      some [a, b, c, d, '-', e, f, '-', g, h]
    else none
  | _ => none

/-- `re.search(r'(\d{4}-\d{2}-\d{2})', s)`: leftmost match. -/
def searchFolderDate : List Char → Option (List Char)
  | [] => none
  | c :: cs =>
    match matchFolderDateAt (c :: cs) with
    | some d => some d
    | none => searchFolderDate cs

example : searchUnitDate "7DT01_20250301_050000_M51_m625_100.0s_0001.fits".toList
    = some "20250301".toList := by decide
example : searchUnitDate "LTT1234.fits".toList = none := by decide
example : formatDate8 "20250301".toList = "2025-03-01".toList := by decide
example : searchFolderDate "2025-03-01_gain2750".toList = some "2025-03-01".toList := by decide
example : is_science_file "BAD_M51.fits".toList = true := by decide
example : is_science_file "7DT01_twilight.fits".toList = false := by decide
example : get_filename_pattern "7DT01_20250301_050000_M51_m625_100.0s_0001.fits".toList
    = "7DT01_20250301_050000_[OBJECT]_m625_100.0s_[NUM].fits".toList := by decide

/-! ### The reconciliation engine (`analyze_and_save_missing_files`) -/

/-- The science/excluded partition loop of `analyze_and_save_missing_files`
(lines 274-281): fold the filtered filenames into the Python sets
`science_files` and `excluded_files`. -/
def collect_science (filenames : List (List Char)) :
    Finset (List Char) × Finset (List Char) :=
  filenames.foldl
    (fun acc f =>
      if is_science_file f then (insert f acc.1, acc.2) else (acc.1, insert f acc.2))
    (∅, ∅)

/-- `missing_files = fits_files - db_files` (line 284). -/
def missing_files (filenames : List (List Char)) (db_files : Finset (List Char)) :
    Finset (List Char) :=
  (collect_science filenames).1 \ db_files

/-- The date key used by the grouping loop (lines 316-325): the formatted
8-digit filename date when the `7DT\d+_(\d{8})_` pattern matches, the
sentinel bucket `SPECIAL` otherwise. -/
def analysisBucketKey (filename : List Char) : List Char :=
  match searchUnitDate filename with
  | some d8 => formatDate8 d8
  | none => "SPECIAL".toList

/-- Contents of the `date_missing[d]` bucket after the grouping loop
(order of insertion is irrelevant to the report, so the bucket is a set). -/
def date_bucket (missing : Finset (List Char)) (d : List Char) : Finset (List Char) :=
  missing.filter (fun f => analysisBucketKey f = d)

/-- Contents of the per-date `patterns[p]` group (lines 422-425). -/
def pattern_group (bucketFiles : Finset (List Char)) (p : List Char) :
    Finset (List Char) :=
  bucketFiles.filter (fun f => get_filename_pattern f = p)

/-- A file found by the scanner: its basename and its containing folder's
basename (`get_files_by_date_range`, lines 85-88). -/
structure ScannedFile where
  filename : List Char
  folder_name : List Char
deriving DecidableEq

/-- The per-file `file_date_info` record (lines 101-106). -/
structure FileDateInfo where
  filename : List Char
  filename_date : Option (List Char)
  folder_date : Option (List Char)
  folder_name : List Char
deriving DecidableEq

/-- Date extraction of `get_files_by_date_range` (lines 90-106): the filename
date from `7DT\d+_(\d{8})_` reformatted with hyphens, the folder date from
`(\d{4}-\d{2}-\d{2})` over the folder name. -/
def extract_date_info (sf : ScannedFile) : FileDateInfo :=
  { filename := sf.filename
    filename_date := (searchUnitDate sf.filename).map formatDate8
    folder_date := searchFolderDate sf.folder_name
    folder_name := sf.folder_name }

/-- One reported date-mismatch record (lines 265-271; the `full_path` field
is omitted, it is not part of the claims). -/
structure DateMismatch where
  filename : List Char
  filename_date : List Char
  folder_date : List Char
  folder_name : List Char
deriving DecidableEq

/-- One iteration of the date-mismatch loop of
`analyze_and_save_missing_files` (lines 261-271). -/
def mismatchStep (acc : List DateMismatch) (sf : ScannedFile) : List DateMismatch :=
  let info := extract_date_info sf
  match info.filename_date, info.folder_date with
  | some fd, some od =>
    if fd ≠ od then acc ++ [⟨info.filename, fd, od, info.folder_name⟩] else acc
  | _, _ => acc

/-- The date-mismatch loop of `analyze_and_save_missing_files`
(lines 260-271). -/
def date_mismatches (files : List ScannedFile) : List DateMismatch :=
  files.foldl mismatchStep []

/-- The reconciliation outputs relevant to the claims: the date-mismatch
list and the missing set are produced as two separate artifacts. -/
structure ReconResult where
  mismatches : List DateMismatch
  missing : Finset (List Char)

/-- Reconciliation over the scanned files and the database-registered
filename set. -/
def analyze_recon (scanned : List ScannedFile) (db_files : Finset (List Char)) :
    ReconResult :=
  { mismatches := date_mismatches scanned
    missing := missing_files (scanned.map (·.filename)) db_files }

theorem mem_collect_science (filenames : List (List Char)) (f : List Char) :
    f ∈ (collect_science filenames).1 ↔ f ∈ filenames ∧ is_science_file f = true := by
  suffices h : ∀ acc : Finset (List Char) × Finset (List Char),
      f ∈ (filenames.foldl
        (fun acc g =>
          if is_science_file g then (insert g acc.1, acc.2) else (acc.1, insert g acc.2))
        acc).1 ↔ f ∈ acc.1 ∨ (f ∈ filenames ∧ is_science_file f = true) by
    simpa using h (∅, ∅)
  intro acc
  induction filenames generalizing acc with
  | nil => simp
  | cons g gs ih =>
    by_cases hg : is_science_file g
    · simp only [List.foldl_cons, if_pos hg, ih, Finset.mem_insert, List.mem_cons]
      constructor
      · rintro ((rfl | h) | h)
        · exact Or.inr ⟨Or.inl rfl, hg⟩
        · exact Or.inl h
        · exact Or.inr ⟨Or.inr h.1, h.2⟩
      · rintro (h | ⟨rfl | h, hs⟩)
        · exact Or.inl (Or.inr h)
        · exact Or.inl (Or.inl rfl)
        · exact Or.inr ⟨h, hs⟩
    · simp only [List.foldl_cons, if_neg hg, ih, List.mem_cons]
      constructor
      · rintro (h | h)
        · exact Or.inl h
        · exact Or.inr ⟨Or.inr h.1, h.2⟩
      · rintro (h | ⟨rfl | h, hs⟩)
        · exact Or.inl h
        · exact absurd hs hg
        · exact Or.inr ⟨h, hs⟩

theorem mem_missing_files (filenames : List (List Char)) (db : Finset (List Char))
    (f : List Char) :
    f ∈ missing_files filenames db ↔
      f ∈ filenames ∧ is_science_file f = true ∧ f ∉ db := by
  simp only [missing_files, Finset.mem_sdiff, mem_collect_science, and_assoc]

theorem extract_date_info_filename (sf : ScannedFile) :
    (extract_date_info sf).filename = sf.filename := rfl

theorem extract_date_info_folder_name (sf : ScannedFile) :
    (extract_date_info sf).folder_name = sf.folder_name := rfl

/-- The per-file condition under which a mismatch record is emitted. -/
def MismatchFrom (sf : ScannedFile) (m : DateMismatch) : Prop :=
  (extract_date_info sf).filename_date = some m.filename_date ∧
  (extract_date_info sf).folder_date = some m.folder_date ∧
  m.filename_date ≠ m.folder_date ∧
  m.filename = sf.filename ∧ m.folder_name = sf.folder_name

theorem mem_mismatchStep (acc : List DateMismatch) (sf : ScannedFile) (m : DateMismatch) :
    m ∈ mismatchStep acc sf ↔ m ∈ acc ∨ MismatchFrom sf m := by
  rcases hfd : (extract_date_info sf).filename_date with _ | fd <;>
    rcases hod : (extract_date_info sf).folder_date with _ | od
  · have hstep : mismatchStep acc sf = acc := by simp [mismatchStep, hfd, hod]
    simp [hstep, MismatchFrom, hfd, hod]
  · have hstep : mismatchStep acc sf = acc := by simp [mismatchStep, hfd, hod]
    simp [hstep, MismatchFrom, hfd, hod]
  · have hstep : mismatchStep acc sf = acc := by simp [mismatchStep, hfd, hod]
    simp [hstep, MismatchFrom, hfd, hod]
  · by_cases hne : fd = od
    · subst hne
      have hstep : mismatchStep acc sf = acc := by simp [mismatchStep, hfd, hod]
      rw [hstep]
      simp only [MismatchFrom, hfd, hod, Option.some.injEq]
      constructor
      · exact Or.inl
      · rintro (h | ⟨h1, h2, h3, _⟩)
        · exact h
        · exact absurd (h1.symm.trans h2) h3
    · have hstep : mismatchStep acc sf =
          acc ++ [⟨sf.filename, fd, od, sf.folder_name⟩] := by
        simp [mismatchStep, hfd, hod, hne, extract_date_info_filename,
          extract_date_info_folder_name]
      rw [hstep]
      simp only [List.mem_append, List.mem_singleton, MismatchFrom, hfd, hod,
        Option.some.injEq]
      cases m with
      | mk f1 d1 d2 f2 =>
        simp only [DateMismatch.mk.injEq]
        constructor
        · rintro (h | ⟨rfl, rfl, rfl, rfl⟩)
          · exact Or.inl h
          · exact Or.inr ⟨rfl, rfl, hne, rfl, rfl⟩
        · rintro (h | ⟨h1, h2, h3, h4, h5⟩)
          · exact Or.inl h
          · exact Or.inr ⟨h4, h1.symm, h2.symm, h5⟩

theorem foldl_mismatchStep_mem (files : List ScannedFile) (acc : List DateMismatch)
    (m : DateMismatch) :
    m ∈ files.foldl mismatchStep acc ↔ m ∈ acc ∨ ∃ sf ∈ files, MismatchFrom sf m := by
  induction files generalizing acc with
  | nil => simp
  | cons sf sfs ih =>
    simp only [List.foldl_cons, ih, mem_mismatchStep, List.mem_cons]
    constructor
    · rintro ((h | h) | ⟨t, ht, h⟩)
      · exact Or.inl h
      · exact Or.inr ⟨sf, Or.inl rfl, h⟩
      · exact Or.inr ⟨t, Or.inr ht, h⟩
    · rintro (h | ⟨t, rfl | ht, h⟩)
      · exact Or.inl (Or.inl h)
      · exact Or.inl (Or.inr h)
      · exact Or.inr ⟨t, ht, h⟩

theorem mem_date_mismatches (files : List ScannedFile) (m : DateMismatch) :
    m ∈ date_mismatches files ↔ ∃ sf ∈ files, MismatchFrom sf m := by
  rw [date_mismatches, foldl_mismatchStep_mem]
  simp

/-! ### Claims C1, C3, C4, C5 -/

/-- C1: for every scanned filename set and registered set, the missing set is
exactly the science candidates among the scanned files that are not
registered, and every missing file lies in exactly one date bucket and, within
that bucket, in exactly one structural-fingerprint group. -/
theorem C1_reconciliation_completeness (scanned : List (List Char))
    (db : Finset (List Char)) (f : List Char) :
    (f ∈ missing_files scanned db ↔
        f ∈ scanned ∧ is_science_file f = true ∧ f ∉ db) ∧
    (f ∈ missing_files scanned db →
      (∃! d, f ∈ date_bucket (missing_files scanned db) d) ∧
      (∃! p, f ∈ pattern_group
          (date_bucket (missing_files scanned db) (analysisBucketKey f)) p)) := by
  refine ⟨mem_missing_files scanned db f, fun hf => ⟨?_, ?_⟩⟩
  · exact ⟨analysisBucketKey f, Finset.mem_filter.2 ⟨hf, rfl⟩,
      fun d hd => ((Finset.mem_filter.1 hd).2).symm⟩
  · exact ⟨get_filename_pattern f,
      Finset.mem_filter.2 ⟨Finset.mem_filter.2 ⟨hf, rfl⟩, rfl⟩,
      fun p hp => ((Finset.mem_filter.1 hp).2).symm⟩

/-- Witness for C1 at a concrete scan: one science file, empty database. -/
theorem C1_reconciliation_completeness_witness :
    ∃! d, "7DT01_20250301_050000_M51_m625_100.0s_0001.fits".toList ∈
      date_bucket
        (missing_files ["7DT01_20250301_050000_M51_m625_100.0s_0001.fits".toList] ∅) d :=
  ((C1_reconciliation_completeness
      ["7DT01_20250301_050000_M51_m625_100.0s_0001.fits".toList] ∅
      "7DT01_20250301_050000_M51_m625_100.0s_0001.fits".toList).2 (by decide)).1

/-- C3 counterexample: `BAD_M51.fits` carries the `BAD_` prefix, so the claim
says it is not a science candidate; `is_science_file` nevertheless returns
`true`, refuting the claimed "exactly when" characterisation. -/
theorem C3_counterexample :
    ¬ (is_science_file "BAD_M51.fits".toList = false ↔
        (pyLower "BAD_M51.fits".toList ∈ special_excludes ∨
         exclude_patterns.any
           (fun p => listContains (pyLower "BAD_M51.fits".toList) p) = true ∨
         listHasPre "BAD_".toList "BAD_M51.fits".toList = true)) := by decide

/-- C3 amended: `is_science_file` returns `false` exactly when the lowercased
filename equals one of the special names or contains one of the twelve
substring markers; a `BAD_` prefix is NOT excluded by this predicate. -/
theorem C3_amended_science_predicate (f : List Char) :
    is_science_file f = false ↔
      (pyLower f ∈ special_excludes ∨
       ∃ p ∈ exclude_patterns, ∃ l r, pyLower f = l ++ p ++ r) := by
  unfold is_science_file
  split_ifs with hs ha
  · exact iff_of_true rfl (Or.inl hs)
  · refine iff_of_true rfl (Or.inr ?_)
    rcases List.any_eq_true.1 ha with ⟨p, hp, hc⟩
    exact ⟨p, hp, (listContains_iff _ _).1 hc⟩
  · refine iff_of_false (by simp) ?_
    rintro (h | ⟨p, hp, l, r, hdecomp⟩)
    · exact hs h
    · exact ha (List.any_eq_true.2 ⟨p, hp, (listContains_iff _ _).2 ⟨l, r, hdecomp⟩⟩)

/-- The bucket key as the claim (C4) describes it: the date from the filename
when present, otherwise the date from the containing folder's name. -/
def specClaimedBucketKey (info : FileDateInfo) : Option (List Char) :=
  match info.filename_date with
  | some d => some d
  | none => info.folder_date

/-- C4 counterexample: `LTT1234.fits` in folder `2025-03-01_gain2750` is a
genuine missing science file with no 8-digit filename date; the claim says its
bucket falls back to the folder date `2025-03-01`, but the grouping loop puts
it in the sentinel bucket `SPECIAL`. -/
theorem C4_counterexample :
    analysisBucketKey "LTT1234.fits".toList = "SPECIAL".toList ∧
    specClaimedBucketKey
        (extract_date_info ⟨"LTT1234.fits".toList, "2025-03-01_gain2750".toList⟩)
      = some "2025-03-01".toList ∧
    "SPECIAL".toList ≠ "2025-03-01".toList ∧
    "LTT1234.fits".toList ∈ missing_files ["LTT1234.fits".toList] ∅ := by decide

/-- C4 amended: a missing file's date bucket is the hyphen-formatted 8-digit
filename date when the `7DT<unit>_<YYYYMMDD>_` pattern matches, and the
sentinel bucket `SPECIAL` otherwise (the folder date is never consulted);
within its bucket the file lies exactly in the fingerprint group of
`get_filename_pattern`, which replaces the object token and trailing numeric
sequence with placeholders for filenames of at least six underscore tokens. -/
theorem C4_amended_date_grouping (missing : Finset (List Char)) (f : List Char)
    (hf : f ∈ missing) :
    f ∈ date_bucket missing (analysisBucketKey f) ∧
    (∀ d, f ∈ date_bucket missing d → d = analysisBucketKey f) ∧
    (∀ d8, searchUnitDate f = some d8 → analysisBucketKey f = formatDate8 d8) ∧
    (searchUnitDate f = none → analysisBucketKey f = "SPECIAL".toList) ∧
    f ∈ pattern_group (date_bucket missing (analysisBucketKey f))
        (get_filename_pattern f) ∧
    (∀ p, f ∈ pattern_group (date_bucket missing (analysisBucketKey f)) p →
      p = get_filename_pattern f) :=
  ⟨Finset.mem_filter.2 ⟨hf, rfl⟩,
   fun d hd => ((Finset.mem_filter.1 hd).2).symm,
   fun d8 h8 => by simp [analysisBucketKey, h8],
   fun h0 => by simp [analysisBucketKey, h0],
   Finset.mem_filter.2 ⟨Finset.mem_filter.2 ⟨hf, rfl⟩, rfl⟩,
   fun p hp => ((Finset.mem_filter.1 hp).2).symm⟩

/-- Witness for C4 at the concrete missing file `LTT1234.fits`. -/
theorem C4_amended_date_grouping_witness :
    "LTT1234.fits".toList ∈
      date_bucket (missing_files ["LTT1234.fits".toList] ∅)
        (analysisBucketKey "LTT1234.fits".toList) :=
  (C4_amended_date_grouping (missing_files ["LTT1234.fits".toList] ∅)
    "LTT1234.fits".toList (by decide)).1

/-- C5: a scanned file yields a date-mismatch record exactly when both its
filename date and folder date exist and differ; the record carries the
filename, both dates (unaltered) and the folder name; the mismatch list is an
output separate from the missing set and does not depend on the registered
set at all. -/
theorem C5_date_mismatch_reporting (scanned : List ScannedFile)
    (db : Finset (List Char)) (m : DateMismatch) :
    m ∈ (analyze_recon scanned db).mismatches ↔
      ∃ sf ∈ scanned,
        (extract_date_info sf).filename_date = some m.filename_date ∧
        (extract_date_info sf).folder_date = some m.folder_date ∧
        m.filename_date ≠ m.folder_date ∧
        m.filename = sf.filename ∧ m.folder_name = sf.folder_name := by
  have h : (analyze_recon scanned db).mismatches = date_mismatches scanned := rfl
  rw [h, mem_date_mismatches]
  simp only [MismatchFrom]

/-! ### SIMPLE_raw_ingest.py : ingest-time filtering (claim C2) -/

/-- Modelled from the spec: `FilenamePatternAnalyzer` lives in
`survey/models.py`, which is not among the sources here; only its callers
are.  Per spec §4.1/§8 the classifier recognises the current-generation
grammar `7DT<unit>_<YYYYMMDD>_<HHMMSS>_<object>_<filter>_<exposure>_<seq>`
(underscore-delimited, unit token `7DT`+digits, 8-digit date token,
6-digit time token), so `analyzer.filename_pattern` is set for every such
filename.  This model accepts exactly that current-generation shape. -/
def filename_pattern_found (filename : List Char) : Bool :=
  match splitU filename with
  | u :: d :: t :: _obj :: _filt :: _exp :: _seq :: [] =>
    listHasPre "7DT".toList u ∧ (u.drop 3 ≠ [] ∧ (u.drop 3).all Char.isDigit) ∧
      (d.length = 8 ∧ d.all Char.isDigit) ∧ (t.length = 6 ∧ t.all Char.isDigit)
  | _ => false

/-- The per-file exclusion decision of `filter_unwanted_files`
(`SIMPLE_raw_ingest.py` lines 462-498) with its two toggles: a file is
excluded when the analyzer finds no filename pattern, else (with
`exclude_focus`) when the uppercased name contains `FOCUS` or the
lowercased name contains `focustest`/`autofocus`, else (with
`exclude_test`) when the name contains `TEST`/`test`/`CALIB`
case-insensitively as written in the source. -/
def ingest_excludes (exclude_focus exclude_test : Bool) (filename : List Char) : Bool :=
  if ¬filename_pattern_found filename then true
  else if exclude_focus &&
      (listContains (pyUpper filename) "FOCUS".toList ||
       listContains (pyLower filename) "focustest".toList ||
       listContains (pyLower filename) "autofocus".toList) then true
  else if exclude_test &&
      (listContains (pyUpper filename) "TEST".toList ||
       listContains (pyLower filename) "test".toList ||
       listContains (pyUpper filename) "CALIB".toList) then true
  else false

/-- C2: the ingest-time filter and the reconciliation-time filter disagree:
`7DT01_20250301_123456_Twilight_m625_100.0s_0001.fits` is a parseable
current-generation filename with no focus/test/calib marker, so ingest keeps
it, yet `is_science_file` excludes it through the `twilight` marker.  The
required property "ingest excludes iff reconciliation excludes" fails. -/
theorem C2_filter_drift :
    ingest_excludes true true
        "7DT01_20250301_123456_Twilight_m625_100.0s_0001.fits".toList = false ∧
    is_science_file
        "7DT01_20250301_123456_Twilight_m625_100.0s_0001.fits".toList = false := by
  decide

/-! ### SIMPLE_raw_ingest.py : frame-type derivation (claim C6) -/

/-- The `analyzer.parsed_filename` dictionary restricted to the keys
`get_frame_type_from_analyzer` and `get_object_name_from_analyzer` read.
`none` models an absent key, `some []` a key present with an empty value. -/
structure ParsedFilename where
  frame_type : Option (List Char)
  imagetyp : Option (List Char)
  obstype : Option (List Char)
  object_info : Option (List Char)
  object_name : Option (List Char)

/-- Python truthiness of `field in parsed and parsed[field]`. -/
def fieldTruthy : Option (List Char) → Bool
  | none => false
  | some s => ¬s.isEmpty

/-- LIGHT-to-SCIENCE normalisation (lines 540-543). -/
def normalizeLight (frame_type : List Char) : List Char :=
  if frame_type = "LIGHT".toList then "SCIENCE".toList else frame_type

/-- `get_frame_type_from_analyzer` from `SIMPLE_raw_ingest.py` lines 530-556,
with `analyzer.parsed_filename` given as an optional record. -/
def get_frame_type_from_analyzer (parsed_filename : Option ParsedFilename) : List Char :=
  match parsed_filename with
  | none => "SCIENCE".toList
  | some parsed =>
    if fieldTruthy parsed.frame_type then
      normalizeLight (pyUpper (parsed.frame_type.getD []))
    else if fieldTruthy parsed.imagetyp then
      normalizeLight (pyUpper (parsed.imagetyp.getD []))
    else if fieldTruthy parsed.obstype then
      normalizeLight (pyUpper (parsed.obstype.getD []))
    else if parsed.object_info.isSome || parsed.object_name.isSome then
      let object_name :=
        if fieldTruthy parsed.object_info then parsed.object_info.getD []
        else parsed.object_name.getD []
      if ¬object_name.isEmpty then
        if listContains (pyUpper object_name) "BIAS".toList then "BIAS".toList
        else if listContains (pyUpper object_name) "DARK".toList then "DARK".toList
        else if listContains (pyUpper object_name) "FLAT".toList then "FLAT".toList
        else "SCIENCE".toList
      else "SCIENCE".toList
    else "SCIENCE".toList

/-- The explicit frame-type token: the first truthy value among the
`frame_type`, `imagetyp`, `obstype` keys. -/
def explicitFrameToken (parsed : ParsedFilename) : Option (List Char) :=
  if fieldTruthy parsed.frame_type then parsed.frame_type
  else if fieldTruthy parsed.imagetyp then parsed.imagetyp
  else if fieldTruthy parsed.obstype then parsed.obstype
  else none

/-- The effective object name: `parsed.get('object_info') or
parsed.get('object_name', '')`. -/
def effectiveObjectName (parsed : ParsedFilename) : List Char :=
  if fieldTruthy parsed.object_info then parsed.object_info.getD []
  else parsed.object_name.getD []

theorem fieldTruthy_eq_some {o : Option (List Char)} (h : fieldTruthy o = true) :
    o = some (o.getD []) := by
  cases o <;> simp_all [fieldTruthy]

/-- C6: for a successfully parsed filename the derived frame type is the
(uppercased) explicit frame-type token when one is present, with `LIGHT`
normalised to `SCIENCE`; with no explicit token it is `BIAS`/`DARK`/`FLAT`
when the effective object name contains that word (checked in that order),
and `SCIENCE` in all remaining cases. -/
theorem C6_frame_type_derivation (parsed : ParsedFilename) :
    (∀ t, explicitFrameToken parsed = some t →
      get_frame_type_from_analyzer (some parsed) =
        (if pyUpper t = "LIGHT".toList then "SCIENCE".toList else pyUpper t)) ∧
    (explicitFrameToken parsed = none →
      get_frame_type_from_analyzer (some parsed) =
        (if listContains (pyUpper (effectiveObjectName parsed)) "BIAS".toList then
          "BIAS".toList
        else if listContains (pyUpper (effectiveObjectName parsed)) "DARK".toList then
          "DARK".toList
        else if listContains (pyUpper (effectiveObjectName parsed)) "FLAT".toList then
          "FLAT".toList
        else "SCIENCE".toList)) := by
  constructor
  · intro t ht
    unfold explicitFrameToken at ht
    split_ifs at ht with h1 h2 h3
    · have hft : parsed.frame_type = some t := ht
      rw [hft] at h1
      simp [get_frame_type_from_analyzer, hft, h1, normalizeLight]
    · have hit : parsed.imagetyp = some t := ht
      rw [hit] at h2
      simp [get_frame_type_from_analyzer, h1, hit, h2, normalizeLight]
    · have hot : parsed.obstype = some t := ht
      rw [hot] at h3
      simp [get_frame_type_from_analyzer, h1, h2, hot, h3, normalizeLight]
  · intro h0
    unfold explicitFrameToken at h0
    split_ifs at h0 with h1 h2 h3
    · rw [h0] at h1; exact absurd h1 (by simp [fieldTruthy])
    · rw [h0] at h2; exact absurd h2 (by simp [fieldTruthy])
    · rw [h0] at h3; exact absurd h3 (by simp [fieldTruthy])
    · simp only [get_frame_type_from_analyzer, h1, h2, h3, Bool.false_eq_true,
        if_false]
      by_cases hg : parsed.object_info.isSome || parsed.object_name.isSome
      · simp only [hg, if_true]
        by_cases he : (effectiveObjectName parsed).isEmpty
        · have hname : effectiveObjectName parsed = [] := List.isEmpty_iff.1 he
          rw [show (if fieldTruthy parsed.object_info then parsed.object_info.getD []
              else parsed.object_name.getD []) = effectiveObjectName parsed from rfl]
          rw [hname]
          simp [listContains, pyUpper]
        · rw [show (if fieldTruthy parsed.object_info then parsed.object_info.getD []
              else parsed.object_name.getD []) = effectiveObjectName parsed from rfl]
          simp [he]
      · have hgf : parsed.object_info = none ∧ parsed.object_name = none := by
          rcases hoi : parsed.object_info <;> rcases hon : parsed.object_name <;>
            simp_all
        have hname : effectiveObjectName parsed = [] := by
          simp [effectiveObjectName, hgf.1, hgf.2, fieldTruthy]
        simp only [hg, Bool.false_eq_true, if_false]
        rw [hname]
        simp [listContains, pyUpper]

/-- Witness for C6: an explicit `LIGHT` token is normalised to `SCIENCE`. -/
theorem C6_frame_type_derivation_witness :
    get_frame_type_from_analyzer
      (some ⟨none, some "LIGHT".toList, none, none, none⟩) = "SCIENCE".toList :=
  ((C6_frame_type_derivation ⟨none, some "LIGHT".toList, none, none, none⟩).1
    "LIGHT".toList (by decide)).trans (by decide)

/-! ### SIMPLE_raw_ingest.py : coordinate backfill (claims C7, C10) -/

/-- The coordinate fields of a science frame; `none` models SQL NULL.  The
source stores floats but only ever compares them with `0.0` (Python
truthiness) and copies them, so `ℚ` is a faithful carrier. -/
structure FrameCoords where
  object_ra : Option ℚ
  object_dec : Option ℚ
deriving DecidableEq

/-- Python truthiness of `frame.object_ra`: false for `None` and for `0.0`. -/
def coordTruthy : Option ℚ → Bool
  | none => false
  | some x => decide (x ≠ 0)

/-- The coordinate-update body of `post_process_targets`
(`SIMPLE_raw_ingest.py` lines 738-743) for one frame acting on one target's
`(ra, dec)` state. -/
def backfill_step (t : ℚ × ℚ) (f : FrameCoords) : ℚ × ℚ :=
  if coordTruthy f.object_ra && coordTruthy f.object_dec &&
      (decide (t.1 = 0) || decide (t.2 = 0)) then
    (f.object_ra.getD 0, f.object_dec.getD 0)
  else t

/-- The post-pass loop over the frames referencing one target, in processing
order. -/
def post_backfill (t : ℚ × ℚ) (frames : List FrameCoords) : ℚ × ℚ :=
  frames.foldl backfill_step t

/-- The coordinates of the first frame whose coordinates are non-null, as
claim C7 words it. -/
def firstNonNullCoords : List FrameCoords → Option (ℚ × ℚ)
  | [] => none
  | f :: fs =>
    match f.object_ra, f.object_dec with
    | some r, some d => some (r, d)
    | _, _ => firstNonNullCoords fs

/-- The coordinates of the first frame whose coordinates are non-null and
nonzero (Python-truthy), which is what the code actually uses. -/
def firstTruthyCoords : List FrameCoords → Option (ℚ × ℚ)
  | [] => none
  | f :: fs =>
    if coordTruthy f.object_ra && coordTruthy f.object_dec then
      some (f.object_ra.getD 0, f.object_dec.getD 0)
    else firstTruthyCoords fs

theorem coordTruthy_iff {o : Option ℚ} :
    coordTruthy o = true ↔ ∃ x, o = some x ∧ x ≠ 0 := by
  cases o <;> simp [coordTruthy]

/-- Once both stored coordinates are nonzero, no frame changes them. -/
theorem post_backfill_frozen (frames : List FrameCoords) (t : ℚ × ℚ)
    (h1 : t.1 ≠ 0) (h2 : t.2 ≠ 0) : post_backfill t frames = t := by
  induction frames with
  | nil => rfl
  | cons f fs ih =>
    have hstep : backfill_step t f = t := by
      simp [backfill_step, h1, h2]
    simp only [post_backfill, List.foldl_cons, hstep]
    exact ih

theorem coordTruthy_getD_ne_zero {o : Option ℚ} (h : coordTruthy o = true) :
    o.getD 0 ≠ 0 := by
  rcases coordTruthy_iff.1 h with ⟨x, rfl, hx⟩
  simpa using hx

/-- C7 counterexample: the first frame with non-null coordinates carries
`(0.0, 10.0)`; the code skips it (Python truthiness rejects `0.0`) and
backfills from the second frame `(5.0, 5.0)`, so the final coordinates are
not those of the first non-null frame as claimed. -/
theorem C7_counterexample :
    firstNonNullCoords [⟨some 0, some 10⟩, ⟨some 5, some 5⟩] = some (0, 10) ∧
    post_backfill (0, 0) [⟨some 0, some 10⟩, ⟨some 5, some 5⟩] = (5, 5) ∧
    ((5 : ℚ), (5 : ℚ)) ≠ ((0 : ℚ), (10 : ℚ)) := by
  refine ⟨rfl, ?_, by norm_num⟩
  simp [post_backfill, backfill_step, coordTruthy]

/-- C7 amended: starting from the `(0, 0)` placeholder, the post-pass leaves
the target at the coordinates of the first processed frame whose coordinates
are non-null AND nonzero (Python truthiness), or at the placeholder if there
is none; and once a target holds nonzero coordinates no later frame ever
changes them (first-writer-wins). -/
theorem C7_amended_first_writer_wins (frames : List FrameCoords) :
    post_backfill (0, 0) frames = (firstTruthyCoords frames).getD (0, 0) ∧
    (∀ t : ℚ × ℚ, t.1 ≠ 0 → t.2 ≠ 0 → post_backfill t frames = t) := by
  refine ⟨?_, fun t => post_backfill_frozen frames t⟩
  induction frames with
  | nil => rfl
  | cons f fs ih =>
    by_cases hc : coordTruthy f.object_ra && coordTruthy f.object_dec
    · obtain ⟨hra, hdec⟩ := Bool.and_eq_true_iff.1 hc
      have hstep : backfill_step (0, 0) f = (f.object_ra.getD 0, f.object_dec.getD 0) := by
        simp [backfill_step, hra, hdec]
      simp only [post_backfill, List.foldl_cons, hstep, firstTruthyCoords, hc, if_true]
      exact post_backfill_frozen fs _ (coordTruthy_getD_ne_zero hra)
        (coordTruthy_getD_ne_zero hdec)
    · have hcf : (coordTruthy f.object_ra && coordTruthy f.object_dec) = false :=
        Bool.eq_false_iff.mpr hc
      have hstep : backfill_step (0, 0) f = (0, 0) := by
        simp [backfill_step, hcf]
      simp only [post_backfill, List.foldl_cons, hstep, firstTruthyCoords, hcf,
        Bool.false_eq_true, if_false]
      exact ih

/-- Witness for C7 on the spec's M51 scenario: a null-coordinate frame, then
`(202.47, 47.20)`, then `(200.0, 40.0)`; the target ends at the second
frame's coordinates, and a target already holding nonzero coordinates is
untouched. -/
theorem C7_amended_first_writer_wins_witness :
    post_backfill ((1 : ℚ), (1 : ℚ))
      [⟨none, none⟩, ⟨some (20247/100), some (472/10)⟩, ⟨some 200, some 40⟩]
      = ((1 : ℚ), (1 : ℚ)) :=
  (C7_amended_first_writer_wins
    [⟨none, none⟩, ⟨some (20247/100), some (472/10)⟩, ⟨some 200, some 40⟩]).2
    (1, 1) (by norm_num) (by norm_num)

/-- C10: the backfill updates a target's coordinates only when the frame's
`object_ra` and `object_dec` are both non-null and nonzero (and the target
still holds a zero component); a frame carrying `None` or an exact `0.0`
coordinate never changes any target. -/
theorem C10_backfill_requires_nonzero (t : ℚ × ℚ) (f : FrameCoords) :
    (backfill_step t f ≠ t →
      ∃ r d, f.object_ra = some r ∧ f.object_dec = some d ∧ r ≠ 0 ∧ d ≠ 0 ∧
        (t.1 = 0 ∨ t.2 = 0) ∧ backfill_step t f = (r, d)) ∧
    ((f.object_ra = none ∨ f.object_ra = some 0 ∨ f.object_dec = none ∨
        f.object_dec = some 0) → backfill_step t f = t) := by
  constructor
  · intro hne
    by_cases hcond : (coordTruthy f.object_ra && coordTruthy f.object_dec &&
        (decide (t.1 = 0) || decide (t.2 = 0))) = true
    · have hc := hcond
      simp only [Bool.and_eq_true, Bool.or_eq_true, decide_eq_true_eq] at hc
      obtain ⟨⟨hra, hdec⟩, hor⟩ := hc
      rcases coordTruthy_iff.1 hra with ⟨r, hr, hr0⟩
      rcases coordTruthy_iff.1 hdec with ⟨d, hd, hd0⟩
      refine ⟨r, d, hr, hd, hr0, hd0, hor, ?_⟩
      have hb : backfill_step t f = (f.object_ra.getD 0, f.object_dec.getD 0) := by
        unfold backfill_step
        rw [if_pos hcond]
      rw [hb, hr, hd]
      rfl
    · exact absurd (by simp [backfill_step, hcond]) hne
  · rintro (h | h | h | h) <;> simp [backfill_step, h, coordTruthy]

/-- Witness for C10: a frame carrying `ra = 0.0` does not update a
placeholder target. -/
theorem C10_backfill_requires_nonzero_witness :
    backfill_step (0, 0) ⟨some 0, some 1⟩ = (0, 0) :=
  (C10_backfill_requires_nonzero (0, 0) ⟨some 0, some 1⟩).2 (Or.inr (Or.inl rfl))

/-! ### SIMPLE_raw_ingest.py : pre-pass sampling (claim C9) -/

/-- Python `lst[::k]` for `k ≥ 1`: the elements at indices `0, k, 2k, ...`.
`strideSel l k c` keeps the head when the countdown `c` is zero, then resets
the countdown to `k - 1`. -/
def strideSel {α : Type} : List α → Nat → Nat → List α
  | [], _, _ => []
  | f :: fs, k, 0 => f :: strideSel fs k (k - 1)
  | _ :: fs, k, c + 1 => strideSel fs k c

/-- The sampling of `pre_process_targets` (`SIMPLE_raw_ingest.py` lines
571-575): `sample_size = min(1000, len(file_paths))` and
`sampled_files = file_paths[::max(1, len(file_paths) // sample_size)]`.
(On an empty batch the Python code raises `ZeroDivisionError`; the theorems
below assume a nonempty batch.) -/
def pre_sample (file_paths : List (List Char)) : List (List Char) :=
  strideSel file_paths (max 1 (file_paths.length / min 1000 file_paths.length)) 0

theorem strideSel_one {α : Type} (l : List α) : strideSel l 1 0 = l := by
  induction l with
  | nil => rfl
  | cons f fs ih => simp [strideSel, ih]

theorem strideSel_length {α : Type} (l : List α) (k : Nat) (hk : 1 ≤ k) :
    ∀ c, c < k → (strideSel l k c).length = (l.length + (k - 1) - c) / k := by
  induction l with
  | nil =>
    intro c hc
    simp only [strideSel, List.length_nil]
    symm
    apply Nat.div_eq_of_lt
    omega
  | cons f fs ih =>
    intro c hc
    cases c with
    | zero =>
      simp only [strideSel, List.length_cons]
      rw [ih (k - 1) (by omega)]
      have h1 : fs.length + (k - 1) - (k - 1) = fs.length := by omega
      have h2 : fs.length + 1 + (k - 1) - 0 = fs.length + k := by omega
      rw [h1, h2, Nat.add_div_right _ (by omega)]
    | succ m =>
      simp only [strideSel, List.length_cons]
      rw [ih m (by omega)]
      congr 1
      omega

/-- C9 counterexample: a batch of 1,001 files has stride
`max(1, 1001 // 1000) = 1`, so the pre-pass examines all 1,001 files —
more than the claimed bound of 1,000. -/
theorem C9_counterexample :
    1000 < (pre_sample (List.replicate 1001 "f".toList)).length := by
  have hl : (List.replicate 1001 "f".toList).length = 1001 :=
    List.length_replicate 1001 "f".toList
  have hk : max 1 ((List.replicate 1001 "f".toList).length /
      min 1000 (List.replicate 1001 "f".toList).length) = 1 := by
    rw [hl]
    decide
  rw [show pre_sample (List.replicate 1001 "f".toList) =
      strideSel (List.replicate 1001 "f".toList)
        (max 1 ((List.replicate 1001 "f".toList).length /
          min 1000 (List.replicate 1001 "f".toList).length)) 0 from rfl,
    hk, strideSel_one, hl]
  omega

/-- C9 amended: for a nonempty batch the pre-pass sample contains at most
1,999 files (the bound 1,000 is exceeded for batch sizes 1,001-1,999, where
the integer-division stride degenerates to 1); batches of at most 1,000
files are examined in full. -/
theorem C9_amended_sample_bound (file_paths : List (List Char))
    (hne : file_paths ≠ []) :
    (pre_sample file_paths).length ≤ 1999 ∧
    (file_paths.length ≤ 1000 → pre_sample file_paths = file_paths) := by
  have hn1 : 1 ≤ file_paths.length := List.length_pos.2 hne
  by_cases hn : file_paths.length ≤ 1000
  · have hmin : min 1000 file_paths.length = file_paths.length :=
      min_eq_right hn
    have hsp : pre_sample file_paths = file_paths := by
      unfold pre_sample
      rw [hmin, Nat.div_self hn1]
      exact strideSel_one _
    exact ⟨by rw [hsp]; omega, fun _ => hsp⟩
  · push_neg at hn
    have hmin : min 1000 file_paths.length = 1000 := min_eq_left (by omega)
    have hk1 : 1 ≤ file_paths.length / 1000 := by
      rw [Nat.le_div_iff_mul_le (by norm_num)]
      omega
    have hmax : max 1 (file_paths.length / min 1000 file_paths.length)
        = file_paths.length / 1000 := by
      rw [hmin]
      omega
    have hlen : (pre_sample file_paths).length =
        (file_paths.length + (file_paths.length / 1000 - 1) - 0) /
          (file_paths.length / 1000) := by
      unfold pre_sample
      rw [hmax]
      exact strideSel_length _ _ hk1 0 (by omega)
    refine ⟨?_, fun h => absurd h (by omega)⟩
    rw [hlen]
    have hlt : file_paths.length + (file_paths.length / 1000 - 1) - 0 <
        2000 * (file_paths.length / 1000) := by
      omega
    have := (Nat.div_lt_iff_lt_mul (by omega : 0 < file_paths.length / 1000)).2 hlt
    omega

/-- Witness for C9 on a two-file batch: the sample is the whole batch. -/
theorem C9_amended_sample_bound_witness :
    pre_sample ["a".toList, "b".toList] = ["a".toList, "b".toList] :=
  (C9_amended_sample_bound ["a".toList, "b".toList] (by decide)).2 (by decide)

/-! ### SIMPLE_raw_ingest.py : tile/target resolution (claim C8) -/

/-- Python `int(digit_string)`. -/
def natOfDigits (ds : List Char) : Nat :=
  ds.foldl (fun n c => 10 * n + (c.toNat - 48)) 0

/-- The per-frame link resolution of `post_process_targets`
(`SIMPLE_raw_ingest.py` lines 709-736) for a frame with the given object
name that starts with neither a tile nor a target link: the result is the
`(tile, target)` link pair written to the frame.  Names starting with `T`
(length over 1) whose tail contains digits are looked up as tiles; when the
tile id is unknown the code falls through to the name-based target lookup. -/
def resolve_frame_links (object_name : List Char) (tiles : List Nat)
    (targets : List (List Char)) : Option Nat × Option (List Char) :=
  if object_name = [] ∨ object_name = "UNKNOWN".toList then (none, none)
  else if object_name.head? = some 'T' ∧ 1 < object_name.length then
    if ¬((object_name.drop 1).filter Char.isDigit).isEmpty then
      if natOfDigits ((object_name.drop 1).filter Char.isDigit) ∈ tiles then
        (some (natOfDigits ((object_name.drop 1).filter Char.isDigit)), none)
      else (none, if object_name ∈ targets then some object_name else none)
    else (none, if object_name ∈ targets then some object_name else none)
  else (none, if object_name ∈ targets then some object_name else none)

/-- `should_create_target` from `SIMPLE_raw_ingest.py` lines 503-527. -/
def should_create_target (object_name frame_type : List Char) : Bool :=
  if object_name = [] ∨ object_name = "UNKNOWN".toList then false
  else if frame_type ∈ (["BIAS", "DARK", "FLAT"].map String.toList) then false
  else if frame_type ≠ "SCIENCE".toList then false
  else if pyUpper object_name ∈
      (["BIAS", "DARK", "FLAT", "CALIB", "CALIBRATION"].map String.toList) then false
  else if (["FOCUS", "TEST", "AUTOFOCUS", "FOCUSTEST"].map String.toList).any
      (fun p => listContains (pyUpper object_name) p) then false
  else if object_name.head? = some 'T' ∧ 1 < object_name.length ∧
      ¬((object_name.drop 1).filter Char.isDigit).isEmpty then false
  else true

/-- One iteration of the target-discovery loop of `pre_process_targets`
(`SIMPLE_raw_ingest.py` lines 577-620), collecting the keys of
`targets_to_create` from `(object_name, frame_type)` pairs. -/
def preCollectStep (acc : List (List Char)) (nf : List Char × List Char) :
    List (List Char) :=
  if nf.1 = [] ∨ nf.1 = "UNKNOWN".toList then acc
  else if ¬should_create_target nf.1 nf.2 then acc
  else if nf.1.head? = some 'T' ∧ 1 < nf.1.length ∧
      ¬((nf.1.drop 1).filter Char.isDigit).isEmpty then acc
  else if nf.1 ∈ acc then acc else acc ++ [nf.1]

/-- The object names the pre-pass decides to create Targets for. -/
def pre_collect (samples : List (List Char × List Char)) : List (List Char) :=
  samples.foldl preCollectStep []

theorem digitChar_isDigit {c : Char} (h : c ∈ "0123456789".toList) :
    c.isDigit = true := by
  fin_cases h <;> decide

/-- C8 counterexample: for object name `T1` with no Tile of id 1 but an
existing Target named `T1`, the post-pass does not silently skip the frame —
it falls through to the name lookup and links the Target. -/
theorem C8_counterexample :
    resolve_frame_links "T1".toList [] ["T1".toList] = (none, some "T1".toList) ∧
    (none, some "T1".toList) ≠ ((none, none) : Option Nat × Option (List Char)) := by
  decide

/-- C8 amended: for an object name `T<digits>`, the post-pass links the frame
to the Tile with that numeric id when it exists (and then never consults
targets); when no such Tile exists, the frame falls through to name-based
Target resolution, linking a pre-existing Target of that exact name if
present and otherwise leaving the frame unlinked; and neither
`should_create_target` nor the pre-pass collection ever creates a Target
bearing such a name. -/
theorem C8_amended_tile_resolution (ds : List Char) (hne : ds ≠ [])
    (hdig : ∀ c ∈ ds, c ∈ "0123456789".toList) (tiles : List Nat)
    (targets : List (List Char)) :
    (natOfDigits ds ∈ tiles →
      resolve_frame_links ('T' :: ds) tiles targets = (some (natOfDigits ds), none)) ∧
    (natOfDigits ds ∉ tiles →
      resolve_frame_links ('T' :: ds) tiles targets =
        (none, if 'T' :: ds ∈ targets then some ('T' :: ds) else none)) ∧
    (∀ frame_type, should_create_target ('T' :: ds) frame_type = false) ∧
    (∀ samples, 'T' :: ds ∉ pre_collect samples) := by
  have hnotempty : ('T' :: ds) ≠ [] := by simp
  have hnotunknown : ('T' :: ds) ≠ "UNKNOWN".toList := by
    intro h
    rw [show "UNKNOWN".toList = 'U' :: "NKNOWN".toList from rfl] at h
    exact absurd (List.head_eq_of_cons_eq h) (by decide)
  have hguard : ¬(('T' :: ds) = [] ∨ ('T' :: ds) = "UNKNOWN".toList) := by
    rintro (h | h)
    · exact hnotempty h
    · exact hnotunknown h
  have hfilter : (('T' :: ds).drop 1).filter Char.isDigit = ds := by
    rw [List.drop_one, List.tail_cons]
    exact List.filter_eq_self.2 fun c hc => digitChar_isDigit (hdig c hc)
  have hdsne : ¬(ds.isEmpty = true) := by
    cases ds
    · exact absurd rfl hne
    · simp
  have htile : ('T' :: ds).head? = some 'T' ∧ 1 < ('T' :: ds).length := by
    refine ⟨rfl, ?_⟩
    have : 0 < ds.length := List.length_pos.2 hne
    simp only [List.length_cons]
    omega
  have hc6 : ('T' :: ds).head? = some 'T' ∧ 1 < ('T' :: ds).length ∧
      ¬((('T' :: ds).drop 1).filter Char.isDigit).isEmpty := by
    rw [hfilter]
    exact ⟨htile.1, htile.2, hdsne⟩
  have hsc : ∀ frame_type, should_create_target ('T' :: ds) frame_type = false := by
    intro frame_type
    unfold should_create_target
    split_ifs with h1 h2 h3 h4 h5 <;> rfl
  refine ⟨?_, ?_, hsc, ?_⟩
  · intro hmem
    unfold resolve_frame_links
    rw [if_neg hguard, if_pos htile, hfilter, if_pos hdsne, if_pos hmem]
  · intro hmem
    unfold resolve_frame_links
    rw [if_neg hguard, if_pos htile, hfilter, if_pos hdsne, if_neg hmem]
  · intro samples
    suffices h : ∀ acc : List (List Char), 'T' :: ds ∉ acc →
        'T' :: ds ∉ samples.foldl preCollectStep acc by
      exact h [] (by simp)
    induction samples with
    | nil => intro acc hacc; simpa using hacc
    | cons nf nfs ih =>
      intro acc hacc
      simp only [List.foldl_cons]
      apply ih
      unfold preCollectStep
      split_ifs with g1 g2 g3 g4 <;>
        first
          | exact hacc
          | (intro hmem
             rcases List.mem_append.1 hmem with h | h
             · exact hacc h
             · have heq : 'T' :: ds = nf.1 := List.mem_singleton.1 h
               rw [← heq] at g2
               simp [hsc nf.2] at g2)

/-- Witness for C8: object name `T1` with Tile 1 present links the tile. -/
theorem C8_amended_tile_resolution_witness :
    resolve_frame_links ('T' :: ['1']) [1] [] = (some 1, none) :=
  ((C8_amended_tile_resolution ['1'] (by decide) (by decide) [1] []).1
    (by decide)).trans (by decide)
